import Mathlib

/-!
Verification of the pilet release pipeline
(`src/tooling/piral-cli/src/apps/publish-pilet.ts`).

The TypeScript functions `publishPilet` and `getFiles` are embedded as
pure Lean functions.  External collaborators imported from `../common`
(`matchAnyPilet`, `matchFiles`, `downloadFile`, `findNpmTarball`,
`triggerBuildPilet` + `createPiletPackage`, `readBinary`, `postFile`,
`checkExists`) are not part of the repository snapshot; they are modelled
as oracle fields of an `Env` record, with the behaviour the spec assigns
to them.  Observable actions (certificate reads, registry lookups,
downloads, builds, file reads, uploads) are recorded in an event trace so
that ordering and "zero attempts" properties can be stated.
-/

namespace PublishPilet

/-- The `PiletPublishSource` enum: `'local' | 'remote' | 'npm'`
(`local` is a Lean keyword, hence `localDir`). -/
inductive PiletPublishSource
  | localDir
  | remote
  | npm
  deriving DecidableEq, Repr

/-- Error codes raised through `fail(...)` in `publish-pilet.ts`. -/
inductive FailCode
  | missingPiletFeedUrl_0060
  | missingPiletTarball_0061
  | entryFileMissing_0077
  | failedUploading_0064
  deriving DecidableEq, Repr

/-- Classification of one artifact's outcome, named after the log codes
used in the upload loop of `publishPilet` (lines 254-272). -/
inductive UploadResultKind
  | published
  | failedToUploadPayment_0161
  | failedToUploadVersion_0162
  | failedToUploadSize_0163
  | failedToUpload_0062
  | failedToRead_0063
  deriving DecidableEq, Repr

/-- `UploadOutcome`: one record per artifact, in artifact order. -/
structure UploadOutcome where
  file : String
  kind : UploadResultKind
  deriving DecidableEq, Repr

/-- Observable actions of a pipeline run, recorded in order. -/
inductive Event
  | certRead (path : String)
  | build (entryModule : String)
  | matchPattern (pattern : String)
  | lookup (specifier : String)
  | download (url : String)
  | fileRead (file : String)
  | upload (file : String)
  deriving DecidableEq, Repr

/-- Modelled from the spec: the external collaborators of `../common`,
whose sources are not part of the repository snapshot, as opaque oracles.
`matchAnyPilet` resolves entry modules, `buildAndPack` is the composition
`triggerBuildPilet` then `createPiletPackage` for one entry,
`matchFiles` expands one glob, `findNpmTarball` is one registry lookup,
`downloadFile` fetches one url, `readBinary` tells whether an artifact
file is readable (truthy content), `postStatus` is the HTTP status the
feed service answers for one artifact, `certExists` tells whether a
certificate path exists on disk. -/
structure Env where
  matchAnyPilet : List String → List String
  buildAndPack : String → String
  matchFiles : String → List String
  findNpmTarball : String → String
  downloadFile : String → List String
  readBinary : String → Bool
  postStatus : String → Nat
  certExists : String → Bool

/-- Result of `postFile` as consumed by `publishPilet`. -/
structure PostResult where
  success : Bool
  status : Nat
  deriving DecidableEq, Repr

/-- A status in the 2xx range. -/
def is2xx (status : Nat) : Bool :=
  200 ≤ status && status < 300

/-- Modelled from the spec: `postFile` (in `../common`, not under the
snapshot) reports `success` exactly for a 2xx HTTP status and hands the
status back for classification. -/
def postFile (status : Nat) : PostResult :=
  { success := is2xx status, status := status }

/-- The `if/else if` classification chain of the upload loop
(`publish-pilet.ts` lines 254-270). -/
def classify (r : PostResult) : UploadResultKind :=
  if r.success then .published
  else if r.status == 402 then .failedToUploadPayment_0161
  else if r.status == 409 then .failedToUploadVersion_0162
  else if r.status == 413 then .failedToUploadSize_0163
  else .failedToUpload_0062

/-- One iteration of the `for (const file of files)` loop
(lines 245-276): read the artifact; when readable, post it and classify
the response; otherwise record `failedToRead_0063` without any upload
attempt.  Returns the events of the iteration and its outcome. -/
def uploadStep (env : Env) (file : String) : List Event × UploadOutcome :=
  if env.readBinary file then
    ([.fileRead file, .upload file],
     { file := file, kind := classify (postFile (env.postStatus file)) })
  else
    ([.fileRead file], { file := file, kind := .failedToRead_0063 })

/-- The whole upload loop: one `uploadStep` per artifact, sequentially,
in artifact order, never aborting early. -/
def runBatch (env : Env) : List String → List Event × List UploadOutcome
  | [] => ([], [])
  | f :: fs =>
    let step := uploadStep env f
    let rest := runBatch env fs
    (step.1 ++ rest.1, step.2 :: rest.2)

/-- The `successfulUploads` accumulator: files whose upload succeeded. -/
def successfulUploads (outcomes : List UploadOutcome) : List String :=
  (outcomes.filter (fun o => o.kind == .published)).map (fun o => o.file)

/-- The final verdict (lines 278-282): done when
`files.length === successfulUploads.length`, otherwise
`fail('failedUploading_0064')`. -/
def batchVerdict (files : List String) (outcomes : List UploadOutcome) :
    Except FailCode Unit :=
  if files.length == (successfulUploads outcomes).length then .ok ()
  else .error .failedUploading_0064

/-- `getFiles` (lines 122-195), with its event trace.  `fresh` resolves
entry modules and builds each; otherwise the `switch (from)` picks one of
the local / remote / npm strategies, each flattening per-source results
with `reduce((result, files) => [...result, ...files], [])`. -/
def getFiles (env : Env) (sources : List String)
    (src : PiletPublishSource) (fresh : Bool) :
    List Event × Except FailCode (List String) :=
  if fresh then
    let allEntries := env.matchAnyPilet sources
    if allEntries.length == 0 then
      ([], .error .entryFileMissing_0077)
    else
      (allEntries.map Event.build, .ok (allEntries.map env.buildAndPack))
  else
    match src with
    | .localDir =>
      (sources.map Event.matchPattern,
       .ok ((sources.map env.matchFiles).foldl (· ++ ·) []))
    | .remote =>
      (sources.map Event.download,
       .ok ((sources.map env.downloadFile).foldl (· ++ ·) []))
    | .npm =>
      let allUrls := sources.map env.findNpmTarball
      (sources.map Event.lookup ++ allUrls.map Event.download,
       .ok ((allUrls.map env.downloadFile).foldl (· ++ ·) []))

/-- The options of `publishPilet` that the modelled control flow reads.
`source` is `string | Array<string>`, optional. -/
structure PublishPiletOptions where
  source : Option (String ⊕ List String) := none
  url : Option String := none
  fresh : Bool := false
  cert : Option String := none
  src : PiletPublishSource := .localDir
  deriving Repr

/-- `!url`: the feed url is absent or empty. -/
def urlMissing : Option String → Bool
  | none => true
  | some s => s.isEmpty

/-- `Array.isArray(source) ? source : [source]` (line 234). -/
def toSources : String ⊕ List String → List String
  | .inl s => [s]
  | .inr l => l

/-- The default for `source` (line 200):
`fresh ? './src/index' : '*.tgz'`. -/
def defaultSource (fresh : Bool) : String ⊕ List String :=
  .inl (if fresh then "./src/index" else "*.tgz")

/-- A complete run: trace, recorded outcomes, and final result. -/
structure RunResult where
  trace : List Event
  outcomes : List UploadOutcome
  result : Except FailCode Unit
  deriving Repr

/-- `publishPilet` (lines 197-283): check the feed url, load the
certificate when its path exists, resolve artifacts through `getFiles`,
fail when none were found, then run the upload loop and derive the
verdict. -/
def publishPilet (env : Env) (opts : PublishPiletOptions) : RunResult :=
  let fresh := opts.fresh
  let source := opts.source.getD (defaultSource fresh)
  if urlMissing opts.url then
    { trace := [], outcomes := [], result := .error .missingPiletFeedUrl_0060 }
  else
    let certTrace :=
      match opts.cert with
      | some p => if env.certExists p then [Event.certRead p] else []
      | none => []
    let sources := toSources source
    match getFiles env sources opts.src fresh with
    | (rtr, .error e) =>
      { trace := certTrace ++ rtr, outcomes := [], result := .error e }
    | (rtr, .ok files) =>
      if files.length == 0 then
        { trace := certTrace ++ rtr, outcomes := [],
          result := .error .missingPiletTarball_0061 }
      else
        let batch := runBatch env files
        { trace := certTrace ++ rtr ++ batch.1, outcomes := batch.2,
          result := batchVerdict files batch.2 }

/-- Recognises a registry-lookup event. -/
def Event.isLookup : Event → Bool
  | .lookup _ => true
  | _ => false

/-- Recognises a tarball-download event. -/
def Event.isDownload : Event → Bool
  | .download _ => true
  | _ => false

/-- Recognises an upload attempt. -/
def Event.isUpload : Event → Bool
  | .upload _ => true
  | _ => false

/-- Number of upload attempts recorded in a trace. -/
def uploadAttempts (tr : List Event) : Nat :=
  (tr.filter Event.isUpload).length

/-- A small concrete environment: the glob `*.tgz` matches two archives,
the feed answers 409 for the first and 200 for the second. -/
def demoEnv : Env where
  matchAnyPilet := fun _ => []
  buildAndPack := fun e => String.append e ".tgz"
  matchFiles := fun s => if s == "*.tgz" then ["a.tgz", "b.tgz"] else []
  findNpmTarball := fun s => String.append s ".tar"
  downloadFile := fun u => [u]
  readBinary := fun _ => true
  postStatus := fun f => if f == "a.tgz" then 409 else 200
  certExists := fun _ => false

/-- A concrete environment where everything succeeds: one matched
archive, always readable, feed always answers 200; no certificate file
exists on disk. -/
def okEnv : Env where
  matchAnyPilet := fun _ => []
  buildAndPack := fun e => e
  matchFiles := fun _ => ["a.tgz"]
  findNpmTarball := fun s => String.append s ".tar"
  downloadFile := fun u => [u]
  readBinary := fun _ => true
  postStatus := fun _ => 200
  certExists := fun _ => false

/-- Concrete options: a feed url and nothing else. -/
def demoOpts : PublishPiletOptions :=
  { url := some "https://feed.example.com" }

/-- Concrete options whose glob matches nothing in `demoEnv`. -/
def noMatchOpts : PublishPiletOptions :=
  { url := some "https://feed.example.com",
    source := some (.inl "none.tgz") }

/-- A concrete environment where the archive `b.tgz` cannot be read while
everything else succeeds. -/
def mixedEnv : Env where
  matchAnyPilet := fun _ => []
  buildAndPack := fun e => e
  matchFiles := fun _ => ["a.tgz", "b.tgz"]
  findNpmTarball := fun s => String.append s ".tar"
  downloadFile := fun u => [u]
  readBinary := fun f => f != "b.tgz"
  postStatus := fun _ => 200
  certExists := fun _ => false

/-! ## Shared lemmas -/

theorem runBatch_snd_length (env : Env) (files : List String) :
    ((runBatch env files).2).length = files.length := by
  induction files with
  | nil => rfl
  | cons f fs ih => simp [runBatch, ih]

theorem successfulUploads_length_le (outs : List UploadOutcome) :
    (successfulUploads outs).length ≤ outs.length := by
  simpa [successfulUploads] using
    List.length_filter_le (fun o => o.kind == UploadResultKind.published) outs

theorem filter_published_length_eq_iff (outs : List UploadOutcome) :
    ((outs.filter fun o => o.kind == UploadResultKind.published).length
        = outs.length) ↔
      ∀ o ∈ outs, o.kind = .published := by
  induction outs with
  | nil => simp
  | cons o os ih =>
    by_cases h : o.kind = UploadResultKind.published
    · simp [List.filter_cons, h, ih]
    · simp only [List.filter_cons, h, beq_iff_eq, if_false, List.length_cons,
        List.mem_cons]
      constructor
      · intro hlen
        have hle :=
          List.length_filter_le (fun o => o.kind == UploadResultKind.published) os
        omega
      · intro hall
        exact absurd (hall o (Or.inl rfl)) h

theorem successfulUploads_length_eq_iff (outs : List UploadOutcome) :
    (successfulUploads outs).length = outs.length ↔
      ∀ o ∈ outs, o.kind = .published := by
  rw [successfulUploads, List.length_map]
  exact filter_published_length_eq_iff outs

theorem batchVerdict_ok_iff (files : List String) (outs : List UploadOutcome)
    (h : outs.length = files.length) :
    batchVerdict files outs = .ok () ↔ ∀ o ∈ outs, o.kind = .published := by
  unfold batchVerdict
  rw [← h, ← successfulUploads_length_eq_iff]
  constructor
  · intro hv
    by_contra hne
    simp [beq_iff_eq, fun x => (Ne.symm hne : ¬ outs.length = _)] at hv
    exact hne (by omega)
  · intro he
    simp [he]

theorem publishPilet_cases (env : Env) (opts : PublishPiletOptions) :
    ((publishPilet env opts).outcomes = [] ∧
      (publishPilet env opts).result ≠ .ok ()) ∨
    ∃ files : List String, files ≠ [] ∧
      (getFiles env (toSources (opts.source.getD (defaultSource opts.fresh)))
          opts.src opts.fresh).2 = .ok files ∧
      (publishPilet env opts).outcomes = (runBatch env files).2 ∧
      (publishPilet env opts).result = batchVerdict files (runBatch env files).2 ∧
      ∃ pre, (publishPilet env opts).trace = pre ++ (runBatch env files).1 := by
  unfold publishPilet
  by_cases hu : urlMissing opts.url
  · simp [hu]
  · simp only [hu, Bool.false_eq_true, if_false]
    rcases hg : getFiles env (toSources (opts.source.getD (defaultSource opts.fresh)))
        opts.src opts.fresh with ⟨tr, res⟩
    cases res with
    | error e => simp
    | ok files =>
      by_cases hf : files.length == 0
      · simp [hf]
      · right
        refine ⟨files, ?_, by simp [hg], by simp [hf], by simp [hf], ?_⟩
        · intro hnil
          simp [hnil] at hf
        · simp only [hf, Bool.false_eq_true, if_false]
          exact ⟨_, rfl⟩

theorem foldl_append_eq_join {α : Type} (L : List (List α)) (acc : List α) :
    L.foldl (· ++ ·) acc = acc ++ L.flatten := by
  induction L generalizing acc with
  | nil => simp
  | cons l ls ih => simp [List.foldl_cons, ih]

/-! ## Claims -/

/-- C1: `publishPilet` reports overall success iff every recorded upload
outcome succeeded; whenever the run recorded at least one outcome, a
failure verdict is exactly `failedUploading_0064`, and the full list of
outcomes is the one quantified over (one per artifact, none dropped). -/
theorem publish_verdict_success_iff_all_uploads (env : Env)
    (opts : PublishPiletOptions)
    (h : (publishPilet env opts).outcomes ≠ []) :
    ((publishPilet env opts).result = .ok () ↔
      ∀ o ∈ (publishPilet env opts).outcomes, o.kind = .published) ∧
    ((publishPilet env opts).result ≠ .ok () →
      (publishPilet env opts).result = .error .failedUploading_0064) := by
  rcases publishPilet_cases env opts with ⟨hnil, _⟩ | ⟨files, _, _, ho, hr, _⟩
  · exact absurd hnil h
  · rw [ho, hr]
    have hlen := runBatch_snd_length env files
    refine ⟨batchVerdict_ok_iff files _ hlen, ?_⟩
    intro hne2
    unfold batchVerdict at hne2 ⊢
    by_cases hb : files.length == (successfulUploads (runBatch env files).2).length
    · simp [hb] at hne2
    · simp [hb]

/-- C1 witness: two matched archives, feed answers 409 then 200; the run
recorded outcomes and the equivalence holds there. -/
theorem publish_verdict_success_iff_all_uploads_witness :
    (publishPilet demoEnv demoOpts).outcomes ≠ [] ∧
    (((publishPilet demoEnv demoOpts).result = .ok () ↔
      ∀ o ∈ (publishPilet demoEnv demoOpts).outcomes, o.kind = .published) ∧
    ((publishPilet demoEnv demoOpts).result ≠ .ok () →
      (publishPilet demoEnv demoOpts).result = .error .failedUploading_0064)) :=
  ⟨by decide, publish_verdict_success_iff_all_uploads demoEnv demoOpts (by decide)⟩

/-- C2: the classification of an upload outcome is a pure function of the
HTTP status: 2xx ⇒ success, 402 ⇒ payment failure, 409 ⇒ version
conflict, 413 ⇒ payload too large, any other non-2xx status ⇒ generic
upload failure. -/
theorem classify_pure_function_of_status (s : Nat) :
    (classify (postFile s) = .published ↔ 200 ≤ s ∧ s < 300) ∧
    (classify (postFile s) = .failedToUploadPayment_0161 ↔ s = 402) ∧
    (classify (postFile s) = .failedToUploadVersion_0162 ↔ s = 409) ∧
    (classify (postFile s) = .failedToUploadSize_0163 ↔ s = 413) ∧
    (classify (postFile s) = .failedToUpload_0062 ↔
      ¬(200 ≤ s ∧ s < 300) ∧ s ≠ 402 ∧ s ≠ 409 ∧ s ≠ 413) := by
  simp only [classify, postFile, is2xx]
  by_cases ha : 200 ≤ s <;> by_cases hb : s < 300 <;>
    by_cases h4 : s = 402 <;> by_cases h9 : s = 409 <;> by_cases h13 : s = 413 <;>
    simp_all <;> (try split_ifs) <;> simp_all

/-- C4: when the feed url is absent or empty, `publishPilet` fails with
`missingPiletFeedUrl_0060` with an empty trace — no certificate read, no
resolution step, no file read and no upload attempt happened. -/
theorem missing_feed_url_fails_before_any_work (env : Env)
    (opts : PublishPiletOptions) (h : urlMissing opts.url = true) :
    publishPilet env opts =
      { trace := [], outcomes := [],
        result := .error .missingPiletFeedUrl_0060 } := by
  unfold publishPilet
  simp [h]

/-- C4 witness: with no url configured the run fails immediately. -/
theorem missing_feed_url_fails_before_any_work_witness :
    urlMissing ({} : PublishPiletOptions).url = true ∧
    publishPilet demoEnv {} =
      { trace := [], outcomes := [],
        result := .error .missingPiletFeedUrl_0060 } :=
  ⟨rfl, missing_feed_url_fails_before_any_work demoEnv {} rfl⟩

/-- C6: under `--fresh`, when no entry module matches the sources,
`getFiles` fails with `entryFileMissing_0077` and its trace is empty —
in particular no build was invoked — whatever the rest of the
configuration. -/
theorem fresh_no_entries_fails_before_build (env : Env)
    (sources : List String) (src : PiletPublishSource)
    (h : env.matchAnyPilet sources = []) :
    getFiles env sources src true = ([], .error .entryFileMissing_0077) := by
  unfold getFiles
  simp [h]

/-- C6 witness: the demo environment matches no entry module. -/
theorem fresh_no_entries_fails_before_build_witness :
    demoEnv.matchAnyPilet ["./src/index"] = [] ∧
    getFiles demoEnv ["./src/index"] .localDir true =
      ([], .error .entryFileMissing_0077) :=
  ⟨rfl, fresh_no_entries_fails_before_build demoEnv ["./src/index"] .localDir rfl⟩

/-- C8: under local acquisition the resolved artifact list is exactly the
concatenation, in source order, of each pattern's matched files with
per-pattern order preserved. -/
theorem local_resolution_is_ordered_concatenation (env : Env)
    (sources : List String) :
    getFiles env sources .localDir false =
      (sources.map Event.matchPattern,
       .ok ((sources.map env.matchFiles).flatten)) := by
  unfold getFiles
  simp [foldl_append_eq_join]

theorem runBatch_getElem (env : Env) (files : List String) (i : Nat)
    (f : String) (h : files[i]? = some f) :
    ((runBatch env files).2)[i]? = some (uploadStep env f).2 := by
  induction files generalizing i with
  | nil => simp at h
  | cons g gs ih =>
    cases i with
    | zero =>
      simp at h
      subst h
      simp [runBatch]
    | succ n =>
      simp at h
      simpa [runBatch] using ih n h

theorem fileRead_mem_runBatch (env : Env) (files : List String)
    (f : String) (h : f ∈ files) :
    Event.fileRead f ∈ (runBatch env files).1 := by
  induction files with
  | nil => simp at h
  | cons g gs ih =>
    rcases List.mem_cons.mp h with rfl | hmem
    · simp only [runBatch, List.mem_append]
      left
      by_cases hr : env.readBinary f
      · simp [uploadStep, hr]
      · simp [uploadStep, hr]
    · simp only [runBatch, List.mem_append]
      exact Or.inr (ih hmem)

theorem upload_not_mem_runBatch (env : Env) (files : List String)
    (f : String) (h : env.readBinary f = false) :
    Event.upload f ∉ (runBatch env files).1 := by
  induction files with
  | nil => simp [runBatch]
  | cons g gs ih =>
    simp only [runBatch, List.mem_append]
    rintro (hstep | hrest)
    · by_cases hr : env.readBinary g
      · simp [uploadStep, hr] at hstep
        subst hstep
        simp [h] at hr
      · simp [uploadStep, hr] at hstep
    · exact ih hrest

/-- C3: the upload loop attempts every artifact: it yields exactly one
outcome per artifact at the same index, reads every artifact in the list
(no short-circuit after a failure), and an unreadable artifact is
recorded as `failedToRead_0063` with no upload attempt for it. -/
theorem upload_loop_attempts_every_artifact (env : Env)
    (files : List String) :
    ((runBatch env files).2).length = files.length ∧
    (∀ (i : Nat) (f : String), files[i]? = some f →
      ((runBatch env files).2)[i]? = some (uploadStep env f).2) ∧
    (∀ f ∈ files, Event.fileRead f ∈ (runBatch env files).1) ∧
    (∀ f ∈ files, env.readBinary f = false →
      (uploadStep env f).2.kind = .failedToRead_0063 ∧
      Event.upload f ∉ (runBatch env files).1) := by
  refine ⟨runBatch_snd_length env files, runBatch_getElem env files,
    fileRead_mem_runBatch env files, ?_⟩
  intro f _ hr
  exact ⟨by simp [uploadStep, hr], upload_not_mem_runBatch env files f hr⟩

/-- C3 witness: two artifacts, the second unreadable — both are
attempted, the second is recorded as unreadable and never uploaded. -/
theorem upload_loop_attempts_every_artifact_witness :
    ((runBatch mixedEnv ["a.tgz", "b.tgz"]).2).length = 2 ∧
    (["a.tgz", "b.tgz"][0]? = some "a.tgz" ∧
      ((runBatch mixedEnv ["a.tgz", "b.tgz"]).2)[0]? =
        some (uploadStep mixedEnv "a.tgz").2) ∧
    ("b.tgz" ∈ ["a.tgz", "b.tgz"] ∧
      Event.fileRead "b.tgz" ∈ (runBatch mixedEnv ["a.tgz", "b.tgz"]).1) ∧
    (mixedEnv.readBinary "b.tgz" = false ∧
      (uploadStep mixedEnv "b.tgz").2.kind = .failedToRead_0063 ∧
      Event.upload "b.tgz" ∉ (runBatch mixedEnv ["a.tgz", "b.tgz"]).1) :=
  ⟨(upload_loop_attempts_every_artifact mixedEnv ["a.tgz", "b.tgz"]).1,
   ⟨rfl, (upload_loop_attempts_every_artifact mixedEnv ["a.tgz", "b.tgz"]).2.1
      0 "a.tgz" rfl⟩,
   ⟨by decide,
    (upload_loop_attempts_every_artifact mixedEnv ["a.tgz", "b.tgz"]).2.2.1
      "b.tgz" (by decide)⟩,
   ⟨by decide,
    (upload_loop_attempts_every_artifact mixedEnv ["a.tgz", "b.tgz"]).2.2.2
      "b.tgz" (by decide) (by decide)⟩⟩

theorem certRead_not_mem_getFiles (env : Env) (sources : List String)
    (src : PiletPublishSource) (fresh : Bool) (p : String) :
    Event.certRead p ∉ (getFiles env sources src fresh).1 := by
  unfold getFiles
  cases fresh with
  | true =>
    by_cases h : (env.matchAnyPilet sources).length == 0
    · simp [h]
    · simp [h]
  | false =>
    cases src with
    | localDir => simp
    | remote => simp
    | npm => simp

theorem certRead_not_mem_runBatch (env : Env) (files : List String)
    (p : String) :
    Event.certRead p ∉ (runBatch env files).1 := by
  induction files with
  | nil => simp [runBatch]
  | cons g gs ih =>
    simp only [runBatch, List.mem_append]
    rintro (hstep | hrest)
    · by_cases hr : env.readBinary g
      · simp [uploadStep, hr] at hstep
      · simp [uploadStep, hr] at hstep
    · exact ih hrest

theorem certRead_not_mem_publishPilet_cert_none (env : Env)
    (opts : PublishPiletOptions) (p : String) (h : opts.cert = none) :
    Event.certRead p ∉ (publishPilet env opts).trace := by
  unfold publishPilet
  by_cases hu : urlMissing opts.url
  · simp [hu]
  · simp only [hu, Bool.false_eq_true, if_false]
    rcases hg : getFiles env (toSources (opts.source.getD (defaultSource opts.fresh)))
        opts.src opts.fresh with ⟨tr, res⟩
    have htr : Event.certRead p ∉ tr := by
      have := certRead_not_mem_getFiles env
        (toSources (opts.source.getD (defaultSource opts.fresh))) opts.src
        opts.fresh p
      rw [hg] at this
      exact this
    cases res with
    | error e => simp [h, htr]
    | ok files =>
      by_cases hf : files.length == 0
      · simp [hf, h, htr]
      · simp [hf, h, htr, certRead_not_mem_runBatch env files p]

/-- C5 counterexample: with `cert` pointing at a file that does not exist
(`okEnv.certExists` is constantly false) the run is not fatal — it
succeeds and performs one upload, refuting "fatal error and zero uploads
attempted". -/
theorem cert_missing_not_fatal_counterexample :
    (publishPilet okEnv
      { url := some "https://feed.example.com",
        cert := some "missing.pem" }).result = .ok () ∧
    uploadAttempts (publishPilet okEnv
      { url := some "https://feed.example.com",
        cert := some "missing.pem" }).trace = 1 :=
  ⟨rfl, rfl⟩

/-- C5 (amended): a `cert` path whose file does not exist is skipped, not
fatal: the run is identical to a run with no certificate configured, and
in particular no certificate read happens. -/
theorem cert_missing_is_skipped (env : Env) (opts : PublishPiletOptions)
    (p : String) (hc : opts.cert = some p) (he : env.certExists p = false) :
    publishPilet env opts = publishPilet env { opts with cert := none } ∧
    Event.certRead p ∉ (publishPilet env opts).trace := by
  obtain ⟨osrc, ourl, ofresh, ocert, osm⟩ := opts
  simp only at hc
  subst hc
  have heq : publishPilet env ⟨osrc, ourl, ofresh, some p, osm⟩ =
      publishPilet env ⟨osrc, ourl, ofresh, none, osm⟩ := by
    unfold publishPilet
    simp [he]
  refine ⟨heq, ?_⟩
  rw [heq]
  exact certRead_not_mem_publishPilet_cert_none env _ p rfl

/-- C5 (amended) witness: concrete run with a nonexistent certificate
path equals the run with no certificate. -/
theorem cert_missing_is_skipped_witness :
    ({ url := some "https://feed.example.com", cert := some "missing.pem" }
        : PublishPiletOptions).cert = some "missing.pem" ∧
    okEnv.certExists "missing.pem" = false ∧
    (publishPilet okEnv
        { url := some "https://feed.example.com", cert := some "missing.pem" } =
      publishPilet okEnv
        { url := some "https://feed.example.com", cert := none } ∧
      Event.certRead "missing.pem" ∉
        (publishPilet okEnv
          { url := some "https://feed.example.com",
            cert := some "missing.pem" }).trace) :=
  ⟨rfl, rfl,
   cert_missing_is_skipped okEnv
     { url := some "https://feed.example.com", cert := some "missing.pem" }
     "missing.pem" rfl rfl⟩

theorem getFiles_events_not_upload (env : Env) (sources : List String)
    (src : PiletPublishSource) (fresh : Bool) :
    ∀ e ∈ (getFiles env sources src fresh).1, e.isUpload = false := by
  intro e he
  unfold getFiles at he
  cases fresh with
  | true =>
    by_cases h : (env.matchAnyPilet sources).length == 0
    · simp [h] at he
    · simp [h, List.mem_map] at he
      obtain ⟨x, _, rfl⟩ := he
      rfl
  | false =>
    cases src with
    | localDir =>
      simp [List.mem_map] at he
      obtain ⟨x, _, rfl⟩ := he
      rfl
    | remote =>
      simp [List.mem_map] at he
      obtain ⟨x, _, rfl⟩ := he
      rfl
    | npm =>
      simp [List.mem_append, List.mem_map] at he
      rcases he with ⟨x, _, rfl⟩ | ⟨x, _, rfl⟩ <;> rfl

theorem uploadAttempts_eq_zero (tr : List Event) :
    (∀ e ∈ tr, e.isUpload = false) → uploadAttempts tr = 0 := by
  induction tr with
  | nil => intro _; rfl
  | cons e es ih =>
    intro h
    have he := h e (by simp)
    have hrest := ih (fun x hx => h x (by simp [hx]))
    simp only [uploadAttempts, List.filter_cons, he, Bool.false_eq_true,
      if_false] at hrest ⊢
    exact hrest

/-- C7: when resolution yields an empty file list (with a feed url
present), the pipeline fails with `missingPiletTarball_0061` and zero
uploads were attempted; and in general a successful verdict implies at
least one artifact was actually uploaded — never success with zero
uploads. -/
theorem empty_resolution_fails_never_silent_success (env : Env)
    (opts : PublishPiletOptions) :
    (urlMissing opts.url = false →
      (getFiles env (toSources (opts.source.getD (defaultSource opts.fresh)))
          opts.src opts.fresh).2 = .ok [] →
      (publishPilet env opts).result = .error .missingPiletTarball_0061 ∧
      (publishPilet env opts).outcomes = [] ∧
      uploadAttempts (publishPilet env opts).trace = 0) ∧
    ((publishPilet env opts).result = .ok () →
      successfulUploads (publishPilet env opts).outcomes ≠ []) := by
  constructor
  · intro hu hg0
    unfold publishPilet
    simp only [hu, Bool.false_eq_true, if_false]
    rcases hg : getFiles env (toSources (opts.source.getD (defaultSource opts.fresh)))
        opts.src opts.fresh with ⟨tr, res⟩
    rw [hg] at hg0
    simp only at hg0
    subst hg0
    simp only [List.length_nil, Nat.zero_eq, beq_self_eq_true, if_true]
    refine ⟨trivial, trivial, ?_⟩
    apply uploadAttempts_eq_zero
    intro e he
    rcases List.mem_append.mp he with hc | ht
    · cases hcert : opts.cert with
      | none => simp [hcert] at hc
      | some p =>
        by_cases hex : env.certExists p
        · simp [hcert, hex] at hc
          subst hc
          rfl
        · simp [hcert, hex] at hc
    · have hne := getFiles_events_not_upload env
        (toSources (opts.source.getD (defaultSource opts.fresh))) opts.src
        opts.fresh
      rw [hg] at hne
      exact hne e ht
  · intro hok
    rcases publishPilet_cases env opts with ⟨_, hne⟩ | ⟨files, hfne, _, ho, hr, _⟩
    · exact absurd hok hne
    · rw [ho]
      rw [hr] at hok
      have hlen := runBatch_snd_length env files
      have hall := (batchVerdict_ok_iff files _ hlen).mp hok
      have hsu := (successfulUploads_length_eq_iff _).mpr hall
      intro hnil
      have h0 : ((runBatch env files).2).length = 0 := by
        rw [← hsu, hnil]
        rfl
      rw [hlen] at h0
      exact hfne (List.length_eq_zero.mp h0)

/-- C7 witness: a glob matching nothing makes the run fail with
`missingPiletTarball_0061` and zero upload attempts. -/
theorem empty_resolution_fails_witness :
    urlMissing noMatchOpts.url = false ∧
    (getFiles demoEnv
        (toSources (noMatchOpts.source.getD (defaultSource noMatchOpts.fresh)))
        noMatchOpts.src noMatchOpts.fresh).2 = .ok [] ∧
    ((publishPilet demoEnv noMatchOpts).result =
        .error .missingPiletTarball_0061 ∧
      (publishPilet demoEnv noMatchOpts).outcomes = [] ∧
      uploadAttempts (publishPilet demoEnv noMatchOpts).trace = 0) :=
  ⟨rfl, rfl,
   (empty_resolution_fails_never_silent_success demoEnv noMatchOpts).1 rfl rfl⟩

/-- C9: under npm acquisition every registry lookup event precedes every
download event in the trace, the download at phase position `k` uses the
tarball url produced by the lookup of the specifier at position `k`, and
the resolved files are the downloads of the looked-up urls in source
order. -/
theorem npm_lookups_precede_downloads (env : Env) (sources : List String) :
    (∀ (i j : Nat) (ei ej : Event),
      ((getFiles env sources .npm false).1)[i]? = some ei →
      ((getFiles env sources .npm false).1)[j]? = some ej →
      ei.isLookup = true → ej.isDownload = true → i < j) ∧
    (∀ (k : Nat) (s : String), sources[k]? = some s →
      ((getFiles env sources .npm false).1)[k]? = some (.lookup s) ∧
      ((getFiles env sources .npm false).1)[sources.length + k]? =
        some (.download (env.findNpmTarball s))) ∧
    (getFiles env sources .npm false).2 =
      .ok (((sources.map env.findNpmTarball).map env.downloadFile).flatten) := by
  have htr : (getFiles env sources .npm false).1 =
      sources.map Event.lookup ++
        (sources.map env.findNpmTarball).map Event.download := rfl
  refine ⟨?_, ?_, ?_⟩
  · intro i j ei ej hi hj hli hdj
    rw [htr] at hi hj
    have hin : i < sources.length := by
      by_contra hge
      push_neg at hge
      rw [List.getElem?_append_right (by simpa using hge)] at hi
      rw [List.getElem?_map] at hi
      obtain ⟨u, _, rfl⟩ := Option.map_eq_some'.mp hi
      simp [Event.isLookup] at hli
    have hjn : sources.length ≤ j := by
      by_contra hlt
      push_neg at hlt
      rw [List.getElem?_append] at hj
      simp only [List.length_map, hlt, if_true] at hj
      rw [List.getElem?_map] at hj
      obtain ⟨u, _, rfl⟩ := Option.map_eq_some'.mp hj
      simp [Event.isDownload] at hdj
    omega
  · intro k s hk
    have hkn : k < sources.length := by
      rcases List.getElem?_eq_some.mp hk with ⟨h, _⟩
      exact h
    constructor
    · rw [htr, List.getElem?_append]
      simp only [List.length_map, hkn, if_true]
      rw [List.getElem?_map, hk]
      rfl
    · rw [htr, List.getElem?_append_right (by simp)]
      simp [List.getElem?_map, hk]
  · simp [getFiles, foldl_append_eq_join]

/-- C9 witness: two specifiers — the first lookup (index 0) precedes the
first download (index 2), which fetches the url looked up for the same
specifier. -/
theorem npm_lookups_precede_downloads_witness :
    ((getFiles demoEnv ["p", "q"] .npm false).1)[0]? = some (.lookup "p") ∧
    ((getFiles demoEnv ["p", "q"] .npm false).1)[2]? =
      some (.download "p.tar") ∧
    (0 : Nat) < 2 ∧
    (["p", "q"][0]? = some "p" ∧
      (((getFiles demoEnv ["p", "q"] .npm false).1)[0]? =
          some (.lookup "p") ∧
        ((getFiles demoEnv ["p", "q"] .npm false).1)[2]? =
          some (.download (demoEnv.findNpmTarball "p")))) :=
  ⟨rfl, rfl,
   (npm_lookups_precede_downloads demoEnv ["p", "q"]).1 0 2
     (.lookup "p") (.download "p.tar") rfl rfl rfl rfl,
   rfl,
   (npm_lookups_precede_downloads demoEnv ["p", "q"]).2.1 0 "p" rfl⟩

/-- C10: an absent `source` defaults to `./src/index` when `fresh` and to
the glob `*.tgz` otherwise, and a scalar source behaves exactly as the
one-element source list. -/
theorem source_default_and_scalar_singleton (env : Env)
    (opts : PublishPiletOptions) (s : String) :
    (opts.source = none →
      publishPilet env opts =
        publishPilet env
          { opts with source := some (defaultSource opts.fresh) }) ∧
    defaultSource true = .inl "./src/index" ∧
    defaultSource false = .inl "*.tgz" ∧
    publishPilet env { opts with source := some (.inl s) } =
      publishPilet env { opts with source := some (.inr [s]) } := by
  obtain ⟨osrc, ourl, ofresh, ocert, osm⟩ := opts
  refine ⟨?_, rfl, rfl, ?_⟩
  · intro h
    replace h : osrc = none := h
    subst h
    rfl
  · rfl

/-- C10 witness: `demoOpts` has no source configured; its run equals the
run with the defaulted source. -/
theorem source_default_and_scalar_singleton_witness :
    demoOpts.source = none ∧
    publishPilet demoEnv demoOpts =
      publishPilet demoEnv
        { demoOpts with source := some (defaultSource demoOpts.fresh) } :=
  ⟨rfl, (source_default_and_scalar_singleton demoEnv demoOpts "x").1 rfl⟩

end PublishPilet
